import Mathlib

/-!
Verification development for the macproxy_plus request-routing and
response-transcoding pipeline (`proxy.py`).

The Python source is shallowly embedded: pure helpers become Lean
functions; the module-level override slot and the on-disk image cache
become explicit state records threaded through the functions; external
collaborators (the UTF-8 decoder, `transcode_html` from `html_utils`,
the BeautifulSoup-based `replace_image_urls` body, the upstream HTTP
client and the extension handler modules) are parameters, since the
embedded control flow only invokes them.
-/

/-- Embeds the `ERROR_HEADER` constant from `proxy.py`. -/
def ERROR_HEADER : String := "[[Macproxy Encountered an Error]]"

/-- Embeds the `USER_AGENT` module constant from `proxy.py`. -/
def USER_AGENT : String := "Mozilla/5.0 (Macintosh; Intel Mac OS X 10_15_7) AppleWebKit/537.36 (KHTML, like Gecko) Chrome/91.0.4472.114 Safari/537.36"

/-- Embeds the `MAX_WIDTH` constant from `proxy.py`. -/
def MAX_WIDTH : Nat := 512

/-- Embeds the `MAX_HEIGHT` constant from `proxy.py`. -/
def MAX_HEIGHT : Nat := 342

/-- Response body content: Python `bytes` or `str`. -/
inductive Content where
  | bytes (b : List Nat)
  | text (t : String)
deriving DecidableEq, Repr

/-- A fully-formed Flask `Response` object: body, status code, headers. -/
structure FlaskResponse where
  content : Content
  status : Nat
  headers : List (String × String)
deriving DecidableEq, Repr

/-- The `ResponseLike` union produced by handlers and the fetcher:
a 3-tuple `(content, status, headers)`, a 2-tuple `(content, status)`,
a 1-tuple `(content,)`, a full `Response` object, or raw content. -/
inductive ResponseLike where
  | tuple3 (content : Content) (status : Nat) (headers : List (String × String))
  | tuple2 (content : Content) (status : Nat)
  | tuple1 (content : Content)
  | flask (r : FlaskResponse)
  | raw (content : Content)
deriving DecidableEq, Repr

/-- External collaborators invoked by the response pipeline, plus the
`DISABLE_CHAR_CONVERSION` configuration flag. -/
structure Pipeline where
  decodeUtf8Lossy : List Nat → String
  transcode_html : String → Bool → String
  replace_image_urls : String → String → String
  disableCharConversion : Bool

/-- Python `s.startswith(pre)` (executable: character-list prefix test). -/
def pyStartsWith (s pre : String) : Bool := pre.data.isPrefixOf s.data

/-- Python `s.endswith(suf)` (executable: character-list suffix test). -/
def pyEndsWith (s suf : String) : Bool := suf.data.isSuffixOf s.data

/-- Python `s.lower()` (ASCII case folding, as used on header values). -/
def pyLower (s : String) : String := ⟨s.data.map Char.toLower⟩

/-- Python `headers.get(k, '')`: exact-key lookup in a dict, defaulting
to the empty string (Python `dict` lookup is case-sensitive). -/
def headersGet (hs : List (String × String)) (k : String) : String :=
  ((hs.find? (fun p => p.1 == k)).map (fun p => p.2)).getD ""

/-- Embeds `if isinstance(content, bytes): content = content.decode('utf-8', errors='replace')`. -/
def contentText (P : Pipeline) (c : Content) : String :=
  match c with
  | .bytes b => P.decodeUtf8Lossy b
  | .text t => t

/-- Werkzeug `response.headers[key] = value`: replace any existing header
with the same (case-insensitive) name, else append. -/
def setHeader (hs : List (String × String)) (k v : String) : List (String × String) :=
  (hs.filter (fun p => pyLower p.1 != pyLower k)) ++ [(k, v)]

/-- Embeds `for key, value in headers.items(): response.headers[key] = value`. -/
def applyHeaders (hs new : List (String × String)) : List (String × String) :=
  new.foldl (fun acc p => setHeader acc p.1 p.2) hs

/-- The body of `process_response_with_image_caching` after tuple
decomposition: content-type inspection, conditional image rewriting and
transcoding, reassembly (`Response(content, status_code)` then header
re-application). -/
def processCore (P : Pipeline) (content : Content) (status_code : Nat)
    (headers : List (String × String)) (base_url : String) : FlaskResponse :=
  let content_type := pyLower (headersGet headers "Content-Type")
  let content :=
    if pyStartsWith content_type "text/html" then
      Content.text (P.transcode_html (P.replace_image_urls (contentText P content) base_url)
        P.disableCharConversion)
    else if pyStartsWith content_type "text/" then
      Content.text (P.transcode_html (contentText P content) P.disableCharConversion)
    else content
  { content := content, status := status_code, headers := applyHeaders [] headers }

/-- Embeds `process_response_with_image_caching(response, base_url)` from
`proxy.py`: a full `Response` passes through unchanged; tuples are
decomposed with status defaulting to 200 and headers to empty; raw
content likewise. -/
def process_response_with_image_caching (P : Pipeline) (response : ResponseLike)
    (base_url : String) : FlaskResponse :=
  match response with
  | .flask r => r
  | .tuple3 c s h => processCore P c s h base_url
  | .tuple2 c s => processCore P c s [] base_url
  | .tuple1 c => processCore P c 200 [] base_url
  | .raw c => processCore P c 200 [] base_url

/-- A loaded extension module: its registry key (the `ENABLED_EXTENSIONS`
entry), its `__name__` (`extensions.<key>.<key>`), its `DOMAIN`, and
whether it exposes `get_override_status`. -/
structure ExtMod where
  key : String
  name : String
  domain : String
  has_override_status : Bool
deriving DecidableEq, Repr

/-- The module-level mutable state of the dispatcher: the single
`override_extension` slot. -/
structure ProxyState where
  override_extension : Option String
deriving DecidableEq, Repr

/-- The per-request environment: the parsed request URL pieces, and the
behavior of the external collaborators during this request — each
extension handler's result (keyed by registry key), each extension's
`get_override_status()` value as observed after the invocation, and the
upstream fetch performed by `send_request`. -/
structure ReqEnv where
  scheme : String
  netloc : String
  url : String
  handlerResult : String → Except String ResponseLike
  overrideStatus : String → Bool
  defaultFetch : String → Except String (Content × Nat × List (String × String))

/-- Embeds `override_extension.split('.')[-1]`: the part after the last dot. -/
def lastComponent (s : String) : String :=
  ⟨(s.data.reverse.takeWhile (fun c => c != '.')).reverse⟩

/-- Embeds `parsed_url.netloc.split(':')[0]`: the part before the first colon. -/
def stripPort (netloc : String) : String :=
  ⟨netloc.data.takeWhile (fun c => c != ':')⟩

/-- Embeds `extensions[k]` dict lookup (insertion-ordered association list). -/
def findExt (exts : List (String × ExtMod)) (k : String) : Option ExtMod :=
  ((exts.find? (fun p => p.1 == k)).map (fun p => p.2))

/-- Replace the first occurrence of a (nonempty) pattern in a character
list. -/
def replaceFirstAux (s pat sub : List Char) : List Char :=
  match s with
  | [] => []
  | c :: rest =>
    if pat.isPrefixOf (c :: rest) then sub ++ (c :: rest).drop pat.length
    else c :: replaceFirstAux rest pat sub

/-- Embeds `url.replace("https://", "http://", 1)`: replace the first occurrence
of the (nonempty) pattern. -/
def replaceFirst (s pat sub : String) : String :=
  ⟨replaceFirstAux s.data pat.data sub.data⟩

/-- The 500 diagnostic response produced by
`abort(500, ERROR_HEADER + str(e))` in `handle_default_request`, as
delivered to the client by the framework. -/
def errorResponse (e : String) : FlaskResponse :=
  { content := .text (ERROR_HEADER ++ e), status := 500, headers := [] }

/-- Embeds `check_override_status(extension_name)` from `proxy.py`: clear the
override slot when the extension exposes `get_override_status` and it
now reports false. -/
def check_override_status (exts : List (String × ExtMod)) (env : ReqEnv)
    (extension_name : String) (st : ProxyState) : ProxyState :=
  match findExt exts extension_name with
  | some ext =>
    if ext.has_override_status && !(env.overrideStatus extension_name) then
      { st with override_extension := none }
    else st
  | none => st

/-- Embeds `handle_override_extension(scheme)` from `proxy.py`. Returns the
updated override slot and either a propagated handler exception, or
`some response` when the override handler served the request, or `none`
when no override is active (stale slot self-healed, or unsupported
scheme). -/
def handle_override_extension (P : Pipeline) (exts : List (String × ExtMod)) (env : ReqEnv)
    (st : ProxyState) : ProxyState × Except String (Option FlaskResponse) :=
  match st.override_extension with
  | none => (st, .ok none)
  | some ov =>
    let extension_name := lastComponent ov
    match findExt exts extension_name with
    | none => ({ st with override_extension := none }, .ok none)
    | some _ =>
      if env.scheme ∈ (["http", "https", "ftp"] : List String) then
        match env.handlerResult extension_name with
        | .error e => (st, .error e)
        | .ok response =>
          let st2 := check_override_status exts env extension_name st
          (st2, .ok (some (process_response_with_image_caching P response env.url)))
      else (st, .ok none)

/-- Embeds `find_matching_extension(host)` from `proxy.py`: first registered
domain that is a suffix of the host wins. -/
def find_matching_extension (d2e : List (String × ExtMod)) (host : String) : Option ExtMod :=
  ((d2e.find? (fun p => pyEndsWith host p.1)).map (fun p => p.2))

/-- Embeds `handle_matching_extension(matching_extension)` from `proxy.py`:
invoke the handler (an exception propagates), possibly enable override,
then normalize the handler's result. -/
def handle_matching_extension (P : Pipeline) (env : ReqEnv) (ext : ExtMod)
    (st : ProxyState) : ProxyState × Except String FlaskResponse :=
  match env.handlerResult ext.key with
  | .error e => (st, .error e)
  | .ok response =>
    let st2 :=
      if ext.has_override_status && env.overrideStatus ext.key then
        { st with override_extension := some ext.name }
      else st
    (st2, .ok (process_response_with_image_caching P response env.url))

/-- Embeds `handle_default_request()` from `proxy.py`: force plain HTTP, fetch
upstream, normalize `(content, status, headers)`; on any exception,
return the `ERROR_HEADER` 500 diagnostic. -/
def handle_default_request (P : Pipeline) (env : ReqEnv) : Except String FlaskResponse :=
  let url := replaceFirst env.url "https://" "http://"
  match env.defaultFetch url with
  | .ok (content, status_code, hdrs) =>
    .ok (process_response_with_image_caching P (.tuple3 content status_code hdrs) url)
  | .error e => .ok (errorResponse e)

/-- Embeds `handle_request(path)` from `proxy.py`: override check first (its
result is normalized a second time), then host match (port stripped),
then the default fetcher. -/
def handle_request (P : Pipeline) (exts d2e : List (String × ExtMod)) (env : ReqEnv)
    (st : ProxyState) : ProxyState × Except String FlaskResponse :=
  let host := stripPort env.netloc
  match handle_override_extension P exts env st with
  | (st1, .error e) => (st1, .error e)
  | (st1, .ok (some r)) =>
    (st1, .ok (process_response_with_image_caching P (.flask r) env.url))
  | (st1, .ok none) =>
    match find_matching_extension d2e host with
    | some ext => handle_matching_extension P env ext st1
    | none => (st1, handle_default_request P env)

/-- Embeds `prepare_headers()` from `proxy.py`: the outbound header dict —
three inbound headers plus the module-level `USER_AGENT` constant. -/
def prepare_headers (inbound : String → Option String) : List (String × Option String) :=
  [("Accept", inbound "Accept"),
   ("Accept-Language", inbound "Accept-Language"),
   ("Referer", inbound "Referer"),
   ("User-Agent", some USER_AGENT)]

/-- Embeds `app.config["USER_AGENT"] = arguments.user_agent` at startup. -/
def app_config_user_agent (cli_user_agent : String) : String := cli_user_agent

/-- The observable state of the image cache plus logs of the external
effects performed: upstream image fetches and encode operations. -/
structure CacheState where
  files : List String
  fetches : List String
  encodes : List String
deriving DecidableEq, Repr

/-- Embeds `fetch_and_cache_image(url)` from `proxy.py`. `md5hex` is the
hashing collaborator; `fetchOk url` is whether the upstream GET
succeeds (`raise_for_status`); `decodeOk url` is whether
`optimize_image` succeeds on the fetched bytes. The upstream GET is
issued first; only then is the on-disk entry checked. -/
def fetch_and_cache_image (md5hex : String → String) (fetchOk decodeOk : String → Bool)
    (url : String) (s : CacheState) : Option String × CacheState :=
  let s1 : CacheState := { s with fetches := s.fetches ++ [url] }
  if fetchOk url then
    let file_name := md5hex url ++ ".gif"
    if file_name ∈ s1.files then
      (some ("/cached_image/" ++ file_name), s1)
    else if decodeOk url then
      (some ("/cached_image/" ++ file_name),
       { s1 with files := s1.files ++ [file_name], encodes := s1.encodes ++ [url] })
    else (none, s1)
  else (none, s1)

/-- Round a rational to the nearest integer, ties to even — the IEEE 754
significand rounding rule. -/
def roundTiesEven (m : ℚ) : ℤ :=
  if m - ⌊m⌋ < 1/2 then ⌊m⌋
  else if 1/2 < m - ⌊m⌋ then ⌊m⌋ + 1
  else if 2 ∣ ⌊m⌋ then ⌊m⌋ else ⌊m⌋ + 1

/-- Round a rational to the nearest IEEE 754 binary64 value (round to
nearest, ties to even): scale into the 53-bit significand range
`[2^52, 2^53)`, round, scale back. Faithful for magnitudes in the
normal finite range, which covers every value arising in
`optimize_image` (ratios and pixel counts); overflow and subnormals
cannot occur there. -/
def fl (q : ℚ) : ℚ :=
  if 0 < q then
    (roundTiesEven (q / 2 ^ (Int.log 2 q - 52)) : ℚ) * 2 ^ (Int.log 2 q - 52)
  else if q < 0 then
    -((roundTiesEven (-q / 2 ^ (Int.log 2 (-q) - 52)) : ℚ) * 2 ^ (Int.log 2 (-q) - 52))
  else 0

/-- Python float division: CPython floats are IEEE binary64 and `/` is
correctly rounded, i.e. the exact rational quotient rounded by `fl`. -/
def pyFloatDiv (a b : ℚ) : ℚ := fl (a / b)

/-- Python float multiplication: the exact product, correctly rounded. -/
def pyFloatMul (a b : ℚ) : ℚ := fl (a * b)

/-- The dimension arithmetic of `optimize_image` in IEEE binary64, as
CPython executes it: `ratio = min(MAX_WIDTH/width, MAX_HEIGHT/height)`
with correctly rounded float divisions (Python `min` compares exactly
and returns one of its arguments), `width*ratio` and `height*ratio`
with correctly rounded float multiplications, and Python `int()`
truncation (floor, as the values are nonnegative). -/
def optimize_dims (w h : Nat) : Nat × Nat :=
  if MAX_WIDTH < w ∨ MAX_HEIGHT < h then
    let r : ℚ := min (pyFloatDiv (MAX_WIDTH : ℚ) (w : ℚ)) (pyFloatDiv (MAX_HEIGHT : ℚ) (h : ℚ))
    ((⌊pyFloatMul (w : ℚ) r⌋).toNat, (⌊pyFloatMul (h : ℚ) r⌋).toNat)
  else (w, h)

/-- An image as the claims observe it: dimensions and bit depth. -/
structure Img where
  width : Nat
  height : Nat
  depth : Nat
deriving DecidableEq, Repr

/-- Embeds `optimize_image(image_data)` from `proxy.py`: conditional downscale,
then `img.convert("1")` — a 1-bit output. -/
def optimize_image (img : Img) : Img :=
  { width := (optimize_dims img.width img.height).1,
    height := (optimize_dims img.width img.height).2,
    depth := 1 }

/-- A concrete pipeline whose collaborators act as identities, for
closed instantiations. -/
def P0 : Pipeline :=
  { decodeUtf8Lossy := fun _ => ""
    transcode_html := fun s _ => s
    replace_image_urls := fun s _ => s
    disableCharConversion := false }

/-- A concrete pipeline whose transcoder visibly marks its input, so
that the branch taken is observable in the output body. -/
def P1 : Pipeline :=
  { decodeUtf8Lossy := fun _ => "?"
    transcode_html := fun s _ => s ++ "!"
    replace_image_urls := fun s _ => s
    disableCharConversion := false }

/-- C5: the response normalizer's postcondition. A full `Response`
passes through unchanged (no rewriting); 2-tuples, 1-tuples and raw
content decompose with status defaulting to 200 and headers defaulting
to empty; by declared `Content-Type`: `text/html` content is decoded,
image-URL-rewritten, then transcoded, in that order; other `text/*`
content is decoded and transcoded only; non-text content keeps a
byte-identical body; in each case the status code and all original
header pairs are re-applied to the final response. -/
theorem normalizer_postcondition (P : Pipeline) (u : String) :
    (∀ r : FlaskResponse, process_response_with_image_caching P (.flask r) u = r) ∧
    (∀ c s, process_response_with_image_caching P (.tuple2 c s) u
        = process_response_with_image_caching P (.tuple3 c s []) u) ∧
    (∀ c, process_response_with_image_caching P (.tuple1 c) u
        = process_response_with_image_caching P (.tuple3 c 200 []) u) ∧
    (∀ c, process_response_with_image_caching P (.raw c) u
        = process_response_with_image_caching P (.tuple3 c 200 []) u) ∧
    (∀ c s hs, pyStartsWith (pyLower (headersGet hs "Content-Type")) "text/html" = true →
      process_response_with_image_caching P (.tuple3 c s hs) u
        = { content := .text (P.transcode_html (P.replace_image_urls (contentText P c) u)
              P.disableCharConversion),
            status := s, headers := applyHeaders [] hs }) ∧
    (∀ c s hs, pyStartsWith (pyLower (headersGet hs "Content-Type")) "text/" = true →
      pyStartsWith (pyLower (headersGet hs "Content-Type")) "text/html" = false →
      process_response_with_image_caching P (.tuple3 c s hs) u
        = { content := .text (P.transcode_html (contentText P c) P.disableCharConversion),
            status := s, headers := applyHeaders [] hs }) ∧
    (∀ c s hs, pyStartsWith (pyLower (headersGet hs "Content-Type")) "text/" = false →
      pyStartsWith (pyLower (headersGet hs "Content-Type")) "text/html" = false →
      process_response_with_image_caching P (.tuple3 c s hs) u
        = { content := c, status := s, headers := applyHeaders [] hs }) := by
  refine ⟨fun r => rfl, fun c s => rfl, fun c => rfl, fun c => rfl, ?_, ?_, ?_⟩
  · intro c s hs hct
    simp [process_response_with_image_caching, processCore, hct]
  · intro c s hs hct hnh
    simp [process_response_with_image_caching, processCore, hct, hnh]
  · intro c s hs hct hnh
    simp [process_response_with_image_caching, processCore, hct, hnh]

/-- Witness for `normalizer_postcondition`: the `text/html` clause at a
concrete tuple response (transcoding runs after image rewriting and its
mark appears in the body). -/
theorem normalizer_postcondition_witness :
    pyStartsWith (pyLower (headersGet [("Content-Type", "text/html")] "Content-Type"))
      "text/html" = true ∧
    process_response_with_image_caching P1
        (.tuple3 (.text "<p>hi</p>") 200 [("Content-Type", "text/html")]) "http://x/"
      = { content := .text (P1.transcode_html
            (P1.replace_image_urls (contentText P1 (.text "<p>hi</p>")) "http://x/")
            P1.disableCharConversion),
          status := 200, headers := applyHeaders [] [("Content-Type", "text/html")] } :=
  ⟨by decide,
   (normalizer_postcondition P1 "http://x/").2.2.2.2.1 (.text "<p>hi</p>") 200
     [("Content-Type", "text/html")] (by decide)⟩

/-- C7 counterexample: two header mappings whose only difference is the
letter case of the Content-Type KEY take different processing branches
and yield different final bodies, because `headers.get('Content-Type')`
is an exact-key dict lookup. -/
theorem content_type_key_case_counterexample :
    (process_response_with_image_caching P1
        (.tuple3 (.text "hi") 200 [("Content-Type", "text/html")]) "u").content
      = .text "hi!" ∧
    (process_response_with_image_caching P1
        (.tuple3 (.text "hi") 200 [("content-type", "text/html")]) "u").content
      = .text "hi" ∧
    Content.text "hi!" ≠ Content.text "hi" := by
  refine ⟨by decide, by decide, by decide⟩

/-- C7 amended: the processing-branch decision is a case-insensitive
prefix match on the Content-Type VALUE found under the exact key
`Content-Type`; two mappings whose values differ only in case yield the
same branch and the same final body. -/
theorem content_type_value_case_insensitive (P : Pipeline) (u : String) (c : Content)
    (s : Nat) (v1 v2 : String) (rest : List (String × String))
    (hv : pyLower v1 = pyLower v2) :
    (process_response_with_image_caching P
        (.tuple3 c s (("Content-Type", v1) :: rest)) u).content
      = (process_response_with_image_caching P
        (.tuple3 c s (("Content-Type", v2) :: rest)) u).content := by
  have h1 : headersGet (("Content-Type", v1) :: rest) "Content-Type" = v1 := by
    simp [headersGet, List.find?]
  have h2 : headersGet (("Content-Type", v2) :: rest) "Content-Type" = v2 := by
    simp [headersGet, List.find?]
  simp only [process_response_with_image_caching, processCore, h1, h2, hv]

/-- Witness for `content_type_value_case_insensitive` at a concrete
upper-case / lower-case value pair. -/
theorem content_type_value_case_insensitive_witness :
    pyLower "TEXT/HTML" = pyLower "text/html" ∧
    (process_response_with_image_caching P1
        (.tuple3 (.text "a") 200 [("Content-Type", "TEXT/HTML")]) "u").content
      = (process_response_with_image_caching P1
        (.tuple3 (.text "a") 200 [("Content-Type", "text/html")]) "u").content :=
  ⟨by decide,
   content_type_value_case_insensitive P1 "u" (.text "a") 200 "TEXT/HTML" "text/html" []
     (by decide)⟩

/-- C10: the normalizer is idempotent on its own output — its result is
always a fully-formed response, and such responses pass through
untouched; re-normalizing (as the override path does in
`handle_request` after `handle_override_extension` already normalized)
equals a single normalization. -/
theorem normalizer_idempotent (P : Pipeline) (r : ResponseLike) (u u2 : String) :
    process_response_with_image_caching P
        (.flask (process_response_with_image_caching P r u)) u2
      = process_response_with_image_caching P r u := rfl

/-- A concrete registered extension module for closed instantiations. -/
def extChat : ExtMod :=
  { key := "chat", name := "extensions.chat.chat", domain := "chat.example",
    has_override_status := true }

/-- A concrete request environment: an http request to a non-matching
host, whose handlers succeed with raw text. -/
def envHttp : ReqEnv :=
  { scheme := "http", netloc := "other.example:8080",
    url := "http://other.example:8080/page",
    handlerResult := fun _ => .ok (.raw (.text "hi")),
    overrideStatus := fun _ => true,
    defaultFetch := fun _ => .error "connection refused" }

/-- C3: while the override slot names a registered extension, any
request with scheme http/https/ftp is routed to that extension's
handler — the result does not depend on the host, the host-match table
or the default fetcher — and immediately after the invocation the slot
is cleared exactly when the extension exposes `get_override_status` and
it reports false. -/
theorem override_captures_requests (P : Pipeline) (exts d2e : List (String × ExtMod))
    (env : ReqEnv) (ov : String) (ext : ExtMod) (resp : ResponseLike)
    (hov : findExt exts (lastComponent ov) = some ext)
    (hscheme : env.scheme ∈ (["http", "https", "ftp"] : List String))
    (hres : env.handlerResult (lastComponent ov) = .ok resp) :
    handle_request P exts d2e env { override_extension := some ov }
      = ({ override_extension :=
             if ext.has_override_status && !(env.overrideStatus (lastComponent ov)) then
               none
             else some ov },
         .ok (process_response_with_image_caching P resp env.url)) := by
  have hchk : check_override_status exts env (lastComponent ov)
      { override_extension := some ov }
      = { override_extension :=
            if ext.has_override_status && !(env.overrideStatus (lastComponent ov)) then
              none
            else some ov } := by
    simp only [check_override_status, hov]
    split <;> simp_all
  have hover : handle_override_extension P exts env { override_extension := some ov }
      = ({ override_extension :=
             if ext.has_override_status && !(env.overrideStatus (lastComponent ov)) then
               none
             else some ov },
         .ok (some (process_response_with_image_caching P resp env.url))) := by
    simp only [handle_override_extension, hov, hres, if_pos hscheme, hchk]
  simp only [handle_request, hover]
  rfl

/-- Witness for `override_captures_requests`: a registered override
extension captures a request whose host matches nothing. -/
theorem override_captures_requests_witness :
    handle_request P0 [("chat", extChat)] [] envHttp
        { override_extension := some "extensions.chat.chat" }
      = ({ override_extension :=
             if extChat.has_override_status
                 && !(envHttp.overrideStatus (lastComponent "extensions.chat.chat")) then
               none
             else some "extensions.chat.chat" },
         .ok (process_response_with_image_caching P0 (.raw (.text "hi")) envHttp.url)) :=
  override_captures_requests P0 [("chat", extChat)] [] envHttp "extensions.chat.chat"
    extChat (.raw (.text "hi")) (by decide) (by decide) rfl

/-- C4: when the override slot names an extension that is not currently
registered, the request cycle behaves exactly as if no override were
active (the stale name is cleared and the request is routed through the
host-match/default path with no failure caused by the stale name), and
afterward the slot no longer holds the stale name. `hreg` is the
registry coherence established at load time: every domain-registered
module is also registered under the last component of its `__name__`. -/
theorem stale_override_self_heals (P : Pipeline) (exts d2e : List (String × ExtMod))
    (env : ReqEnv) (ov : String)
    (hstale : findExt exts (lastComponent ov) = none)
    (hreg : ∀ p ∈ d2e, findExt exts (lastComponent p.2.name) ≠ none) :
    handle_request P exts d2e env { override_extension := some ov }
      = handle_request P exts d2e env { override_extension := none } ∧
    (handle_request P exts d2e env { override_extension := some ov }).1.override_extension
      ≠ some ov := by
  have h1 : handle_override_extension P exts env { override_extension := some ov }
      = ({ override_extension := none }, .ok none) := by
    simp only [handle_override_extension, hstale]
  have h0 : handle_override_extension P exts env { override_extension := none }
      = ({ override_extension := none }, .ok none) := rfl
  refine ⟨by simp only [handle_request, h1, h0], ?_⟩
  simp only [handle_request, h1]
  rcases hmatch : find_matching_extension d2e (stripPort env.netloc) with _ | ext
  · simp
  · have hmem : ∃ p ∈ d2e, p.2 = ext := by
      rcases Option.map_eq_some'.mp hmatch with ⟨p, hp, hpe⟩
      exact ⟨p, List.mem_of_find?_eq_some hp, hpe⟩
    rcases hmem with ⟨p, hpd, hpe⟩
    have hne : ext.name ≠ ov := by
      intro hcase
      exact hreg p hpd (by rw [hpe, hcase, hstale])
    simp only [handle_matching_extension]
    split
    · simp
    · split <;> simp [hne]

/-- Witness for `stale_override_self_heals`: an override naming an
unloaded module is cleared and the request proceeds as with no
override. -/
theorem stale_override_self_heals_witness :
    handle_request P0 [("chat", extChat)] [] envHttp
        { override_extension := some "extensions.gone.gone" }
      = handle_request P0 [("chat", extChat)] [] envHttp { override_extension := none } ∧
    (handle_request P0 [("chat", extChat)] [] envHttp
        { override_extension := some "extensions.gone.gone" }).1.override_extension
      ≠ some "extensions.gone.gone" :=
  stale_override_self_heals P0 [("chat", extChat)] [] envHttp "extensions.gone.gone"
    (by decide) (by simp)

/-- C2 amended: an exception raised by an extension handler — on the
override path or the host-match path — propagates out of the dispatcher
uncaught (it is not converted into the `ERROR_HEADER` diagnostic
response), and the override slot is left exactly as it was. -/
theorem handler_error_propagates (P : Pipeline) (exts d2e : List (String × ExtMod))
    (env : ReqEnv) (st : ProxyState) (e : String) :
    (∀ ov ext, st.override_extension = some ov →
      findExt exts (lastComponent ov) = some ext →
      env.scheme ∈ (["http", "https", "ftp"] : List String) →
      env.handlerResult (lastComponent ov) = .error e →
      handle_request P exts d2e env st = (st, .error e)) ∧
    (∀ ext, st.override_extension = none →
      find_matching_extension d2e (stripPort env.netloc) = some ext →
      env.handlerResult ext.key = .error e →
      handle_request P exts d2e env st = (st, .error e)) := by
  constructor
  · intro ov ext hst hov hscheme hres
    obtain ⟨o⟩ := st
    cases hst
    have hover : handle_override_extension P exts env { override_extension := some ov }
        = ({ override_extension := some ov }, .error e) := by
      simp only [handle_override_extension, hov, hres, if_pos hscheme]
    simp only [handle_request, hover]
  · intro ext hst hmatch hres
    obtain ⟨o⟩ := st
    cases hst
    simp only [handle_request, handle_override_extension, hmatch,
      handle_matching_extension, hres]

/-- A request environment whose extension handlers raise. -/
def envBoom : ReqEnv :=
  { scheme := "http", netloc := "other.example",
    url := "http://other.example/",
    handlerResult := fun _ => .error "boom",
    overrideStatus := fun _ => true,
    defaultFetch := fun _ => .error "net down" }

/-- C2 counterexample: a raising override handler makes the dispatcher
propagate the exception — the result is not the fixed `ERROR_HEADER`
diagnostic response used for upstream fetch errors (there is no
try/except around extension handler invocations). -/
theorem handler_exception_not_caught_counterexample :
    handle_request P0 [("chat", extChat)] [] envBoom
        { override_extension := some "extensions.chat.chat" }
      = ({ override_extension := some "extensions.chat.chat" }, .error "boom") ∧
    (Except.error "boom" : Except String FlaskResponse) ≠ .ok (errorResponse "boom") :=
  ⟨rfl, fun h => Except.noConfusion h⟩

/-- Witness for `handler_error_propagates`: both the override path and
the host-match path propagate a concrete handler exception. -/
theorem handler_error_propagates_witness :
    handle_request P0 [("chat", extChat)] [("chat.example", extChat)] envBoom
        { override_extension := some "extensions.chat.chat" }
      = ({ override_extension := some "extensions.chat.chat" }, .error "boom") ∧
    handle_request P0 [("chat", extChat)]
        [("other.example", extChat)] envBoom { override_extension := none }
      = ({ override_extension := none }, .error "boom") :=
  ⟨(handler_error_propagates P0 [("chat", extChat)] [("chat.example", extChat)] envBoom
      { override_extension := some "extensions.chat.chat" } "boom").1
      "extensions.chat.chat" extChat rfl (by decide) (by decide) rfl,
   (handler_error_propagates P0 [("chat", extChat)] [("other.example", extChat)] envBoom
      { override_extension := none } "boom").2 extChat rfl (by decide) rfl⟩

/-- Auxiliary: `List.find?` returns the element of the first position whose test
holds when everything before it fails the test. -/
theorem find?_first_of_append {α : Type} (p : α → Bool) (pre : List α) (x : α)
    (post : List α) (hx : p x = true) (hpre : ∀ a ∈ pre, p a = false) :
    (pre ++ x :: post).find? p = some x := by
  induction pre with
  | nil => simp [List.find?_cons, hx]
  | cons a l ih =>
    have ha : p a = false := hpre a (List.mem_cons_self a l)
    simp only [List.cons_append, List.find?_cons, ha]
    exact ih (fun b hb => hpre b (List.mem_cons_of_mem a hb))

/-- C8: with no override active, dispatch strips any port from the
request's hostname and selects the first-registered extension whose
domain is a suffix of that host (registration order breaks ties); when
no registered domain is a suffix, the default fetcher handles the
request. -/
theorem host_match_dispatch (P : Pipeline) (exts : List (String × ExtMod))
    (env : ReqEnv) (pre post : List (String × ExtMod)) (d : String) (ext : ExtMod) :
    (pyEndsWith (stripPort env.netloc) d = true →
      (∀ p ∈ pre, pyEndsWith (stripPort env.netloc) p.1 = false) →
      handle_request P exts (pre ++ (d, ext) :: post) env { override_extension := none }
        = handle_matching_extension P env ext { override_extension := none }) ∧
    (∀ d2e : List (String × ExtMod),
      (∀ p ∈ d2e, pyEndsWith (stripPort env.netloc) p.1 = false) →
      handle_request P exts d2e env { override_extension := none }
        = ({ override_extension := none }, handle_default_request P env)) := by
  constructor
  · intro hd hpre
    have hfound : find_matching_extension (pre ++ (d, ext) :: post) (stripPort env.netloc)
        = some ext := by
      unfold find_matching_extension
      rw [find?_first_of_append (fun p => pyEndsWith (stripPort env.netloc) p.1)
        pre (d, ext) post hd hpre]
      rfl
    simp only [handle_request, handle_override_extension, hfound]
  · intro d2e hnone
    have hmiss : find_matching_extension d2e (stripPort env.netloc) = none := by
      unfold find_matching_extension
      rw [List.find?_eq_none.mpr (fun a ha hpa => by
        rw [hnone a ha] at hpa; exact Bool.false_ne_true hpa)]
      rfl
    simp only [handle_request, handle_override_extension, hmiss]

/-- Witness for `host_match_dispatch`: with a non-matching domain
registered first and two matching domains after it, the earlier
matching registration wins; and a host matching nothing falls through
to the default fetcher. -/
theorem host_match_dispatch_witness :
    handle_request P0 [("chat", extChat)]
        ([("notamatch.example", extChat)] ++
          ("example", extChat) :: [("other.example", extChat)]) envHttp
      { override_extension := none }
      = handle_matching_extension P0 envHttp extChat { override_extension := none } ∧
    handle_request P0 [("chat", extChat)] [("notamatch.example", extChat)] envHttp
      { override_extension := none }
      = ({ override_extension := none }, handle_default_request P0 envHttp) :=
  ⟨(host_match_dispatch P0 [("chat", extChat)] envHttp [("notamatch.example", extChat)]
      [("other.example", extChat)] "example" extChat).1 (by decide) (by decide),
   (host_match_dispatch P0 [("chat", extChat)] envHttp [] [] "" extChat).2
      [("notamatch.example", extChat)] (by decide)⟩

/-- C1 counterexample: calling `fetch_and_cache_image` a second time
with the same URL returns the same cached reference and performs no
second encode, but a second upstream fetch IS performed — the GET is
issued before the on-disk existence check, so after two calls the fetch
log holds two entries, not one. -/
theorem image_cache_refetch_counterexample :
    fetch_and_cache_image (fun u => u) (fun _ => true) (fun _ => true) "img"
        { files := [], fetches := [], encodes := [] }
      = (some "/cached_image/img.gif",
         { files := ["img.gif"], fetches := ["img"], encodes := ["img"] }) ∧
    fetch_and_cache_image (fun u => u) (fun _ => true) (fun _ => true) "img"
        { files := ["img.gif"], fetches := ["img"], encodes := ["img"] }
      = (some "/cached_image/img.gif",
         { files := ["img.gif"], fetches := ["img", "img"], encodes := ["img"] }) ∧
    (["img", "img"] : List String) ≠ ["img"] := by
  refine ⟨by decide, by decide, by decide⟩

/-- C1 amended: when an entry with the URL's content-address key is
already on disk, the resolve operation returns the same cached
reference with no re-encode and no new cache entry — but it still
issues one upstream fetch per call. -/
theorem cached_entry_same_reference_no_reencode (md5hex : String → String)
    (fetchOk decodeOk : String → Bool) (url : String) (s : CacheState)
    (hcached : (md5hex url ++ ".gif") ∈ s.files)
    (hfetch : fetchOk url = true) :
    fetch_and_cache_image md5hex fetchOk decodeOk url s
      = (some ("/cached_image/" ++ md5hex url ++ ".gif"),
         { s with fetches := s.fetches ++ [url] }) := by
  simp only [fetch_and_cache_image, hfetch, if_true]
  rw [if_pos hcached]
  simp [String.append_assoc]

/-- Witness for `cached_entry_same_reference_no_reencode` at a concrete
cached URL. -/
theorem cached_entry_same_reference_no_reencode_witness :
    fetch_and_cache_image (fun u => u) (fun _ => true) (fun _ => true) "img"
        { files := ["img.gif"], fetches := ["img"], encodes := ["img"] }
      = (some ("/cached_image/" ++ (fun u : String => u) "img" ++ ".gif"),
         { files := ["img.gif"], fetches := ["img"] ++ ["img"], encodes := ["img"] }) :=
  cached_entry_same_reference_no_reencode (fun u => u) (fun _ => true) (fun _ => true)
    "img" { files := ["img.gif"], fetches := ["img"], encodes := ["img"] }
    (by decide) rfl

/-- C6: the outbound header dict built by `prepare_headers` contains
exactly the allowlisted keys Accept, Accept-Language, Referer and
User-Agent, with the three former copied from the inbound request — but
the User-Agent sent is always the module-level `USER_AGENT` constant:
the value stored in the configuration at startup
(`app.config["USER_AGENT"] = arguments.user_agent`) is never read, so a
configured value such as "TestAgent/1.0" is not the one forwarded. -/
theorem prepare_headers_ignores_configured_user_agent :
    (∀ inbound : String → Option String,
      (prepare_headers inbound).map Prod.fst
        = ["Accept", "Accept-Language", "Referer", "User-Agent"] ∧
      (prepare_headers inbound).find? (fun p => p.1 == "User-Agent")
        = some ("User-Agent", some USER_AGENT)) ∧
    app_config_user_agent "TestAgent/1.0" = "TestAgent/1.0" ∧
    "TestAgent/1.0" ≠ USER_AGENT := by
  exact ⟨fun inbound => ⟨rfl, rfl⟩, rfl, by decide⟩

/-- Truncating a nonnegative rational to a natural number moves it by
less than one. -/
theorem floor_toNat_near (x : ℚ) (hx : 0 ≤ x) : |((⌊x⌋.toNat : ℚ)) - x| < 1 := by
  have h0 : (0 : ℤ) ≤ ⌊x⌋ := Int.floor_nonneg.mpr hx
  rw [show ((⌊x⌋.toNat : ℚ)) = ((⌊x⌋ : ℤ) : ℚ) by exact_mod_cast Int.toNat_of_nonneg h0]
  rw [abs_lt]
  constructor <;> linarith [Int.floor_le x, Int.sub_one_lt_floor x]

/-- Rounding to the nearest integer with ties to even moves a value by
at most one half. -/
theorem roundTiesEven_near (m : ℚ) : |((roundTiesEven m : ℤ) : ℚ) - m| ≤ 1/2 := by
  have hf1 := Int.floor_le m
  have hf2 := Int.lt_floor_add_one m
  unfold roundTiesEven
  split
  · rw [abs_le]; constructor <;> linarith
  · split
    · rw [abs_le]; push_cast; constructor <;> linarith
    · split <;> (rw [abs_le]; push_cast; constructor <;> linarith)

/-- Evaluation rule for `roundTiesEven` away from ties: a value strictly
within one half of the integer `n` rounds to `n`. -/
theorem roundTiesEven_eq_of (m : ℚ) (n : ℤ)
    (h1 : (n : ℚ) - 1/2 < m) (h2 : m < (n : ℚ) + 1/2) :
    roundTiesEven m = n := by
  rcases le_or_lt (n : ℚ) m with hnm | hnm
  · have hfl : ⌊m⌋ = n := by
      rw [Int.floor_eq_iff]
      exact ⟨hnm, by linarith⟩
    unfold roundTiesEven
    rw [hfl, if_pos (by linarith)]
  · have hfl : ⌊m⌋ = n - 1 := by
      rw [Int.floor_eq_iff]
      constructor <;> push_cast <;> linarith
    unfold roundTiesEven
    rw [hfl, if_neg (by push_cast; linarith), if_pos (by push_cast; linarith)]
    omega

/-- Evaluation rule for `Int.log 2` from a bracketing by powers of two. -/
theorem int_log2_eq (q : ℚ) (k : ℤ) (h0 : 0 < q)
    (h1 : (2:ℚ) ^ k ≤ q) (h2 : q < (2:ℚ) ^ (k + 1)) :
    Int.log 2 q = k := by
  have hb : ((2:ℕ):ℚ) = (2:ℚ) := by norm_num
  refine le_antisymm ?_ ?_
  · have h3 : Int.log 2 q < k + 1 :=
      (Int.lt_zpow_iff_log_lt (b := 2) (by norm_num) h0).mp (by rw [hb]; exact h2)
    omega
  · exact (Int.zpow_le_iff_le_log (by norm_num) h0).mp (by rw [hb]; exact h1)

/-- Relative error of one binary64 rounding: at most one unit in the
last place of a 53-bit significand. -/
theorem fl_near (q : ℚ) (h0 : 0 < q) : |fl q - q| ≤ q * 2 ^ (-53 : ℤ) := by
  unfold fl
  rw [if_pos h0]
  have h2e : (0:ℚ) < 2 ^ (Int.log 2 q - 52) := by positivity
  have hqe : q / 2 ^ (Int.log 2 q - 52) * 2 ^ (Int.log 2 q - 52) = q :=
    div_mul_cancel₀ _ (ne_of_gt h2e)
  have key : ((roundTiesEven (q / 2 ^ (Int.log 2 q - 52)) : ℤ) : ℚ)
        * 2 ^ (Int.log 2 q - 52) - q
      = (((roundTiesEven (q / 2 ^ (Int.log 2 q - 52)) : ℤ) : ℚ)
          - q / 2 ^ (Int.log 2 q - 52)) * 2 ^ (Int.log 2 q - 52) := by
    rw [sub_mul, hqe]
  rw [key, abs_mul, abs_of_pos h2e]
  have hstep : |((roundTiesEven (q / 2 ^ (Int.log 2 q - 52)) : ℤ) : ℚ)
        - q / 2 ^ (Int.log 2 q - 52)| * 2 ^ (Int.log 2 q - 52)
      ≤ 1/2 * 2 ^ (Int.log 2 q - 52) :=
    mul_le_mul_of_nonneg_right (roundTiesEven_near _) h2e.le
  have hlog_le : (2:ℚ) ^ Int.log 2 q ≤ q := by
    have := Int.zpow_log_le_self (b := 2) (by norm_num) h0
    rwa [show ((2:ℕ):ℚ) = (2:ℚ) by norm_num] at this
  have hhalf : (1/2 : ℚ) * 2 ^ (Int.log 2 q - 52) = 2 ^ Int.log 2 q * 2 ^ (-53 : ℤ) := by
    rw [show (1/2 : ℚ) = 2 ^ (-1 : ℤ) by norm_num,
      ← zpow_add₀ (by norm_num : (2:ℚ) ≠ 0), ← zpow_add₀ (by norm_num : (2:ℚ) ≠ 0)]
    congr 1
    omega
  calc |((roundTiesEven (q / 2 ^ (Int.log 2 q - 52)) : ℤ) : ℚ)
        - q / 2 ^ (Int.log 2 q - 52)| * 2 ^ (Int.log 2 q - 52)
      ≤ 1/2 * 2 ^ (Int.log 2 q - 52) := hstep
    _ = 2 ^ Int.log 2 q * 2 ^ (-53 : ℤ) := hhalf
    _ ≤ q * 2 ^ (-53 : ℤ) := mul_le_mul_of_nonneg_right hlog_le (by positivity)

/-- Rounding a positive value in the normal range stays positive. -/
theorem fl_pos (q : ℚ) (h0 : 0 < q) : 0 < fl q := by
  have h1 := (abs_le.mp (fl_near q h0)).1
  have h2 : q * 2 ^ (-53 : ℤ) < q * 1 :=
    mul_lt_mul_of_pos_left (by norm_num) h0
  linarith

/-- Closed-form evaluation of `fl` from a power-of-two bracketing of the
argument and a strict (tie-free) bracketing of the rounded significand. -/
theorem fl_eval (q : ℚ) (k n : ℤ) (h0 : 0 < q)
    (h1 : (2:ℚ) ^ k ≤ q) (h2 : q < (2:ℚ) ^ (k + 1))
    (h3 : ((n : ℚ) - 1/2) * 2 ^ (k - 52) < q)
    (h4 : q < ((n : ℚ) + 1/2) * 2 ^ (k - 52)) :
    fl q = (n : ℚ) * 2 ^ (k - 52) := by
  have h2e : (0:ℚ) < 2 ^ (k - 52) := by positivity
  have hlog : Int.log 2 q = k := int_log2_eq q k h0 h1 h2
  have hr : roundTiesEven (q / 2 ^ (k - 52)) = n :=
    roundTiesEven_eq_of _ n ((lt_div_iff₀ h2e).mpr h3) ((div_lt_iff₀ h2e).mpr h4)
  unfold fl
  rw [if_pos h0, hlog, hr]

/-- C9 counterexample: for the 1000×700 input (computed in IEEE binary64
exactly as CPython does), width exceeds the 512-wide maximum and the
output is 488×342 — the larger output dimension (488, the width) misses
its configured maximum 512 by far more than rounding, because the
binding constraint was the height. -/
theorem resize_larger_dimension_counterexample :
    optimize_dims 1000 700 = (488, 342) ∧
    342 ≤ 488 ∧
    488 + 1 < MAX_WIDTH := by
  refine ⟨?_, by decide, by decide⟩
  have hrw : fl ((512:ℚ) / 1000) = (4611686018427388 : ℚ) * 2 ^ ((-1:ℤ) - 52) :=
    fl_eval _ (-1) 4611686018427388 (by norm_num) (by norm_num) (by norm_num)
      (by norm_num) (by norm_num)
  have hrh : fl ((342:ℚ) / 700) = (8801320414632626 : ℚ) * 2 ^ ((-2:ℤ) - 52) :=
    fl_eval _ (-2) 8801320414632626 (by norm_num) (by norm_num) (by norm_num)
      (by norm_num) (by norm_num)
  have hmin : min ((4611686018427388 : ℚ) * 2 ^ ((-1:ℤ) - 52))
        ((8801320414632626 : ℚ) * 2 ^ ((-2:ℤ) - 52))
      = (8801320414632626 : ℚ) * 2 ^ ((-2:ℤ) - 52) :=
    min_eq_right (by norm_num)
  have hpw : fl ((1000:ℚ) * ((8801320414632626 : ℚ) * 2 ^ ((-2:ℤ) - 52)))
      = (8595039467414674 : ℚ) * 2 ^ ((8:ℤ) - 52) :=
    fl_eval _ 8 8595039467414674 (by norm_num) (by norm_num) (by norm_num)
      (by norm_num) (by norm_num)
  have hph : fl ((700:ℚ) * ((8801320414632626 : ℚ) * 2 ^ ((-2:ℤ) - 52)))
      = (6016527627190272 : ℚ) * 2 ^ ((8:ℤ) - 52) :=
    fl_eval _ 8 6016527627190272 (by norm_num) (by norm_num) (by norm_num)
      (by norm_num) (by norm_num)
  have hfw : ⌊(8595039467414674 : ℚ) * 2 ^ ((8:ℤ) - 52)⌋ = 488 := by
    rw [Int.floor_eq_iff]
    constructor <;> norm_num
  have hfh : ⌊(6016527627190272 : ℚ) * 2 ^ ((8:ℤ) - 52)⌋ = 342 := by
    rw [Int.floor_eq_iff]
    constructor <;> norm_num
  simp only [optimize_dims, pyFloatDiv, pyFloatMul, MAX_WIDTH, MAX_HEIGHT, Nat.cast_ofNat]
  rw [if_pos (by norm_num)]
  rw [hrw, hrh, hmin, hpw, hph, hfw, hfh]
  rfl

/-- Faithfulness check of the binary64 model against a float trace of
the program: for a 561×374 input CPython computes
`min(512/561, 342/374) = 512/561` rounded, then
`int(561*ratio) = 511` (the product rounds to just below 512) and
`int(374*ratio) = 341` — neither output dimension lands on its
configured maximum. -/
theorem optimize_dims_float_trace : optimize_dims 561 374 = (511, 341) := by
  have hrw : fl ((512:ℚ) / 561) = (8220474186145076 : ℚ) * 2 ^ ((-1:ℤ) - 52) :=
    fl_eval _ (-1) 8220474186145076 (by norm_num) (by norm_num) (by norm_num)
      (by norm_num) (by norm_num)
  have hrh : fl ((342:ℚ) / 374) = (8236529799789891 : ℚ) * 2 ^ ((-1:ℤ) - 52) :=
    fl_eval _ (-1) 8236529799789891 (by norm_num) (by norm_num) (by norm_num)
      (by norm_num) (by norm_num)
  have hmin : min ((8220474186145076 : ℚ) * 2 ^ ((-1:ℤ) - 52))
        ((8236529799789891 : ℚ) * 2 ^ ((-1:ℤ) - 52))
      = (8220474186145076 : ℚ) * 2 ^ ((-1:ℤ) - 52) :=
    min_eq_left (by norm_num)
  have hpw : fl ((561:ℚ) * ((8220474186145076 : ℚ) * 2 ^ ((-1:ℤ) - 52)))
      = (9007199254740991 : ℚ) * 2 ^ ((8:ℤ) - 52) :=
    fl_eval _ 8 9007199254740991 (by norm_num) (by norm_num) (by norm_num)
      (by norm_num) (by norm_num)
  have hph : fl ((374:ℚ) * ((8220474186145076 : ℚ) * 2 ^ ((-1:ℤ) - 52)))
      = (6004799503160661 : ℚ) * 2 ^ ((8:ℤ) - 52) :=
    fl_eval _ 8 6004799503160661 (by norm_num) (by norm_num) (by norm_num)
      (by norm_num) (by norm_num)
  have hfw : ⌊(9007199254740991 : ℚ) * 2 ^ ((8:ℤ) - 52)⌋ = 511 := by
    rw [Int.floor_eq_iff]
    constructor <;> norm_num
  have hfh : ⌊(6004799503160661 : ℚ) * 2 ^ ((8:ℤ) - 52)⌋ = 341 := by
    rw [Int.floor_eq_iff]
    constructor <;> norm_num
  simp only [optimize_dims, pyFloatDiv, pyFloatMul, MAX_WIDTH, MAX_HEIGHT, Nat.cast_ofNat]
  rw [if_pos (by norm_num)]
  rw [hrw, hrh, hmin, hpw, hph, hfw, hfh]
  rfl

/-- Numeral form of the binary64 relative error bound: one unit in the
last place is `q / 2^53 = q / 9007199254740992`. -/
theorem fl_near_num (q : ℚ) (h0 : 0 < q) : |fl q - q| ≤ q / 9007199254740992 := by
  have h := fl_near q h0
  have heq : q * 2 ^ (-53:ℤ) = q / 9007199254740992 := by
    rw [show ((2:ℚ) ^ (-53:ℤ)) = 1 / 9007199254740992 by norm_num]
    ring
  rwa [heq] at h

/-- C9 amended: the transformed image is 1-bit deep; dimensions within
both maxima are unchanged; when either dimension exceeds its maximum,
both are scaled by the one rounded ratio
`min(fl(MAX_WIDTH/w), fl(MAX_HEIGHT/h))` so that neither output
dimension exceeds its maximum; the dimension whose constraint binds
lands on its configured maximum or one pixel short of it (IEEE binary64
rounding can pull the product just below the maximum before `int()`
truncates, as the 561×374 trace shows); and the aspect ratio is
preserved within one pixel up to a floating-point margin of 1/1024
(both output dimensions are within `1 + 1/1024` of the same exact
rescale by the rounded ratio). The larger output dimension need not be
near its own maximum (see the counterexample). -/
theorem optimize_image_resize (img : Img) (hw : 0 < img.width) (hh : 0 < img.height) :
    (optimize_image img).depth = 1 ∧
    (¬(MAX_WIDTH < img.width ∨ MAX_HEIGHT < img.height) →
      (optimize_image img).width = img.width ∧
      (optimize_image img).height = img.height) ∧
    ((MAX_WIDTH < img.width ∨ MAX_HEIGHT < img.height) →
      (optimize_image img).width ≤ MAX_WIDTH ∧
      (optimize_image img).height ≤ MAX_HEIGHT ∧
      (MAX_WIDTH - 1 ≤ (optimize_image img).width ∨
        MAX_HEIGHT - 1 ≤ (optimize_image img).height) ∧
      (∃ r : ℚ, 0 < r ∧
        |((optimize_image img).width : ℚ) - img.width * r| < 1 + 1/1024 ∧
        |((optimize_image img).height : ℚ) - img.height * r| < 1 + 1/1024)) := by
  obtain ⟨w, h, dep⟩ := img
  simp only [optimize_image, optimize_dims, pyFloatDiv, pyFloatMul, MAX_WIDTH, MAX_HEIGHT,
    Nat.cast_ofNat] at hw hh ⊢
  refine ⟨by simp, ?_, ?_⟩
  · intro hcond
    rw [if_neg hcond]
    simp
  · intro hcond
    rw [if_pos hcond]
    have hwq : (0:ℚ) < (w:ℚ) := by exact_mod_cast hw
    have hhq : (0:ℚ) < (h:ℚ) := by exact_mod_cast hh
    set cw : ℚ := (512:ℚ) / (w:ℚ) with hcw
    set ch : ℚ := (342:ℚ) / (h:ℚ) with hch
    have hcw_pos : 0 < cw := div_pos (by norm_num) hwq
    have hch_pos : 0 < ch := div_pos (by norm_num) hhq
    have hwcw : (w:ℚ) * cw = 512 := by
      rw [hcw, mul_comm]; exact div_mul_cancel₀ _ (ne_of_gt hwq)
    have hhch : (h:ℚ) * ch = 342 := by
      rw [hch, mul_comm]; exact div_mul_cancel₀ _ (ne_of_gt hhq)
    have hcw_b := abs_le.mp (fl_near_num cw hcw_pos)
    have hch_b := abs_le.mp (fl_near_num ch hch_pos)
    have hflcw_pos : 0 < fl cw := fl_pos cw hcw_pos
    have hflch_pos : 0 < fl ch := fl_pos ch hch_pos
    set r : ℚ := min (fl cw) (fl ch) with hrdef
    have hr_pos : 0 < r := lt_min hflcw_pos hflch_pos
    have hwr_pos : 0 < (w:ℚ) * r := mul_pos hwq hr_pos
    have hhr_pos : 0 < (h:ℚ) * r := mul_pos hhq hr_pos
    have hwr_ub : (w:ℚ) * r ≤ 512 + 512 / 9007199254740992 := by
      have h1 : (w:ℚ) * r ≤ (w:ℚ) * fl cw :=
        mul_le_mul_of_nonneg_left (min_le_left _ _) hwq.le
      have h2 : (w:ℚ) * fl cw ≤ (w:ℚ) * (cw + cw / 9007199254740992) :=
        mul_le_mul_of_nonneg_left (by linarith [hcw_b.2]) hwq.le
      have h3 : (w:ℚ) * (cw + cw / 9007199254740992)
          = (w:ℚ) * cw + ((w:ℚ) * cw) / 9007199254740992 := by ring
      rw [h3, hwcw] at h2
      linarith
    have hhr_ub : (h:ℚ) * r ≤ 342 + 342 / 9007199254740992 := by
      have h1 : (h:ℚ) * r ≤ (h:ℚ) * fl ch :=
        mul_le_mul_of_nonneg_left (min_le_right _ _) hhq.le
      have h2 : (h:ℚ) * fl ch ≤ (h:ℚ) * (ch + ch / 9007199254740992) :=
        mul_le_mul_of_nonneg_left (by linarith [hch_b.2]) hhq.le
      have h3 : (h:ℚ) * (ch + ch / 9007199254740992)
          = (h:ℚ) * ch + ((h:ℚ) * ch) / 9007199254740992 := by ring
      rw [h3, hhch] at h2
      linarith
    have hpw_b := abs_le.mp (fl_near_num ((w:ℚ) * r) hwr_pos)
    have hph_b := abs_le.mp (fl_near_num ((h:ℚ) * r) hhr_pos)
    have hwr_u2 : ((w:ℚ) * r) / 9007199254740992 ≤ 1/1024 := by linarith [hwr_ub]
    have hhr_u2 : ((h:ℚ) * r) / 9007199254740992 ≤ 1/1024 := by linarith [hhr_ub]
    have hpw_ub : fl ((w:ℚ) * r) < 513 := by linarith [hpw_b.2, hwr_u2, hwr_ub]
    have hph_ub : fl ((h:ℚ) * r) < 343 := by linarith [hph_b.2, hhr_u2, hhr_ub]
    have hpw_pos : 0 < fl ((w:ℚ) * r) := fl_pos _ hwr_pos
    have hph_pos : 0 < fl ((h:ℚ) * r) := fl_pos _ hhr_pos
    have hfw_le : ⌊fl ((w:ℚ) * r)⌋ < 513 := Int.floor_lt.mpr (by exact_mod_cast hpw_ub)
    have hfh_le : ⌊fl ((h:ℚ) * r)⌋ < 343 := Int.floor_lt.mpr (by exact_mod_cast hph_ub)
    refine ⟨by omega, by omega, ?_, ⟨r, hr_pos, ?_, ?_⟩⟩
    · rcases min_choice (fl cw) (fl ch) with hc | hc
      · left
        have hreq : r = fl cw := by rw [hrdef, hc]
        have hwr_lb : 512 - 512 / 9007199254740992 ≤ (w:ℚ) * r := by
          rw [hreq]
          have h2 : (w:ℚ) * (cw - cw / 9007199254740992) ≤ (w:ℚ) * fl cw :=
            mul_le_mul_of_nonneg_left (by linarith [hcw_b.1]) hwq.le
          have h3 : (w:ℚ) * (cw - cw / 9007199254740992)
              = (w:ℚ) * cw - ((w:ℚ) * cw) / 9007199254740992 := by ring
          rw [h3, hwcw] at h2
          linarith
        have hpw_lb : (511:ℚ) < fl ((w:ℚ) * r) := by
          linarith [hpw_b.1, hwr_u2, hwr_lb]
        have hlef : (511:ℤ) ≤ ⌊fl ((w:ℚ) * r)⌋ :=
          Int.le_floor.mpr (by exact_mod_cast hpw_lb.le)
        omega
      · right
        have hreq : r = fl ch := by rw [hrdef, hc]
        have hhr_lb : 342 - 342 / 9007199254740992 ≤ (h:ℚ) * r := by
          rw [hreq]
          have h2 : (h:ℚ) * (ch - ch / 9007199254740992) ≤ (h:ℚ) * fl ch :=
            mul_le_mul_of_nonneg_left (by linarith [hch_b.1]) hhq.le
          have h3 : (h:ℚ) * (ch - ch / 9007199254740992)
              = (h:ℚ) * ch - ((h:ℚ) * ch) / 9007199254740992 := by ring
          rw [h3, hhch] at h2
          linarith
        have hph_lb : (341:ℚ) < fl ((h:ℚ) * r) := by
          linarith [hph_b.1, hhr_u2, hhr_lb]
        have hlef : (341:ℤ) ≤ ⌊fl ((h:ℚ) * r)⌋ :=
          Int.le_floor.mpr (by exact_mod_cast hph_lb.le)
        omega
    · have h1 := floor_toNat_near (fl ((w:ℚ) * r)) hpw_pos.le
      have h2 : |fl ((w:ℚ) * r) - (w:ℚ) * r| ≤ 1/1024 :=
        le_trans (fl_near_num _ hwr_pos) hwr_u2
      calc |((⌊fl ((w:ℚ) * r)⌋.toNat : ℚ)) - (w:ℚ) * r|
          ≤ |((⌊fl ((w:ℚ) * r)⌋.toNat : ℚ)) - fl ((w:ℚ) * r)|
              + |fl ((w:ℚ) * r) - (w:ℚ) * r| := abs_sub_le _ _ _
        _ < 1 + 1/1024 := by linarith
    · have h1 := floor_toNat_near (fl ((h:ℚ) * r)) hph_pos.le
      have h2 : |fl ((h:ℚ) * r) - (h:ℚ) * r| ≤ 1/1024 :=
        le_trans (fl_near_num _ hhr_pos) hhr_u2
      calc |((⌊fl ((h:ℚ) * r)⌋.toNat : ℚ)) - (h:ℚ) * r|
          ≤ |((⌊fl ((h:ℚ) * r)⌋.toNat : ℚ)) - fl ((h:ℚ) * r)|
              + |fl ((h:ℚ) * r) - (h:ℚ) * r| := abs_sub_le _ _ _
        _ < 1 + 1/1024 := by linarith

/-- Witness for `optimize_image_resize` at a concrete 1024×342 8-bit
image. -/
theorem optimize_image_resize_witness :
    (optimize_image { width := 1024, height := 342, depth := 8 }).depth = 1 ∧
    (¬(MAX_WIDTH < 1024 ∨ MAX_HEIGHT < 342) →
      (optimize_image { width := 1024, height := 342, depth := 8 }).width = 1024 ∧
      (optimize_image { width := 1024, height := 342, depth := 8 }).height = 342) ∧
    ((MAX_WIDTH < 1024 ∨ MAX_HEIGHT < 342) →
      (optimize_image { width := 1024, height := 342, depth := 8 }).width ≤ MAX_WIDTH ∧
      (optimize_image { width := 1024, height := 342, depth := 8 }).height ≤ MAX_HEIGHT ∧
      (MAX_WIDTH - 1 ≤ (optimize_image { width := 1024, height := 342, depth := 8 }).width ∨
        MAX_HEIGHT - 1 ≤
          (optimize_image { width := 1024, height := 342, depth := 8 }).height) ∧
      (∃ r : ℚ, 0 < r ∧
        |((optimize_image { width := 1024, height := 342, depth := 8 }).width : ℚ)
            - 1024 * r| < 1 + 1/1024 ∧
        |((optimize_image { width := 1024, height := 342, depth := 8 }).height : ℚ)
            - 342 * r| < 1 + 1/1024)) :=
  optimize_image_resize { width := 1024, height := 342, depth := 8 }
    (by decide) (by decide)
